import Mathlib

/-!
Verification of the transaction dashboard's date-normalization,
filtering and aggregation pipeline
(source: src/components/TransactionDashboard.tsx, src/lib/supabase.ts).

The embedding translates the source's JavaScript/TypeScript into pure
Lean functions:

* JavaScript strings become `String` / `List Char`; `null`-able fields
  become `Option`.
* JavaScript numbers carrying amounts become `Option Rat`, with `none`
  standing for `NaN` (the source never produces `Infinity` on the
  modelled paths, and `Infinity` literals in `parseFloat` input are not
  modelled).  Float rounding is out of scope: every value the theorems
  touch is exactly representable.
* `new Date(year, month, day, h, m, s)` is modelled by `jsMakeDate`,
  which normalizes out-of-range components exactly as ECMAScript's
  `MakeDay`/`MakeTime` do (month carry, day overflow rolling into
  adjacent months, time-of-day carry) and yields `none` for an Invalid
  Date (a `NaN` component, or a time value outside ECMAScript's
  ±8.64e15 ms clamp).  Local-time vs UTC is immaterial here: the date is
  built from civil components and read back with the civil getters, so
  the model uses pure proleptic-Gregorian arithmetic (DST anomalies are
  out of scope).
* `getMonth()` is 0-based in JavaScript; the dashboard only ever uses
  `getMonth() + 1`, so `JSDate.month` stores the 1-based month.
-/

/-! ## Characters and digit strings -/

/-- Decimal digit test, as ECMAScript's lexers use it: one of `'0'`..`'9'`. -/
def isDigitB (c : Char) : Bool :=
  '0' ≤ c && c ≤ '9'

/-- Numeric value of a digit character. -/
def digitVal (c : Char) : Nat :=
  c.toNat - 48

/-- The digit character for a value below ten. -/
def digitChar10 : Nat → Char
  | 0 => '0'
  | 1 => '1'
  | 2 => '2'
  | 3 => '3'
  | 4 => '4'
  | 5 => '5'
  | 6 => '6'
  | 7 => '7'
  | 8 => '8'
  | 9 => '9'
  | _ => '?'

/-- Value of a run of digit characters read most-significant first
(the core of both `parseInt` and of `parseFloat`'s integer part). -/
def digitsToNat (l : List Char) : Nat :=
  l.foldl (fun a c => a * 10 + digitVal c) 0

/-- Decimal rendering of a natural number, most-significant digit
first (the digits of JavaScript's `String(n)`). -/
def natToDigits (n : Nat) : List Char :=
  if n < 10 then [digitChar10 n]
  else natToDigits (n / 10) ++ [digitChar10 (n % 10)]

/-- `String(n).padStart(2, "0")` on a natural number: a leading zero is
added when the rendering has a single digit. -/
def pad2L (n : Nat) : List Char :=
  if n < 10 then '0' :: natToDigits n else natToDigits n

/-- JavaScript `String.prototype.split(sep)` (single-character
separator, no limit): empty pieces are kept and the empty string splits
to one empty piece. -/
def splitCh (sep : Char) : List Char → List (List Char)
  | [] => [[]]
  | c :: cs =>
    if c = sep then [] :: splitCh sep cs
    else
      match splitCh sep cs with
      | [] => [[c]]
      | p :: ps => (c :: p) :: ps

/-- JavaScript `String.prototype.trim`: strip whitespace from both
ends.  `Char.isWhitespace` covers the space, tab and line-break
characters the inputs at hand can contain; the further exotic
whitespace of the ECMAScript class is out of scope. -/
def trimList (l : List Char) : List Char :=
  ((l.dropWhile Char.isWhitespace).reverse.dropWhile Char.isWhitespace).reverse

/-- Sign handling shared by `parseInt` and `parseFloat`: an optional
leading `'-'` or `'+'` is consumed, and the flag says whether the value
is negated. -/
def splitSign (l : List Char) : Bool × List Char :=
  match l with
  | [] => (false, [])
  | c :: r =>
    if c = '-' then (true, r)
    else if c = '+' then (false, r)
    else (false, c :: r)

/-- JavaScript `parseInt(s, 10)`: skip leading whitespace, read an
optional sign and then the longest run of decimal digits, ignoring
everything after it; `none` models the `NaN` result when no digit is
found. -/
def jsParseIntList (l : List Char) : Option Int :=
  let l1 := l.dropWhile Char.isWhitespace
  let sg := splitSign l1
  match sg.2.takeWhile isDigitB with
  | [] => none
  | ds => some (if sg.1 then -(digitsToNat ds : Int) else (digitsToNat ds : Int))

/-- `parseInt` on a `String`. -/
def jsParseInt (s : String) : Option Int :=
  jsParseIntList s.data

/-- JavaScript `parseFloat(s)`: skip leading whitespace, read the
longest decimal-literal prefix `[sign] digits [. digits] [e [sign]
digits]`; `none` models `NaN` when no digit is found before the
exponent.  A malformed exponent is ignored, as in JavaScript
(`parseFloat("1e") = 1`).  `Infinity` literals are not modelled. -/
def jsParseFloatList (l : List Char) : Option Rat :=
  let l1 := l.dropWhile Char.isWhitespace
  let sg := splitSign l1
  let ip := sg.2.takeWhile isDigitB
  let r2 := sg.2.dropWhile isDigitB
  let fr : List Char × List Char :=
    match r2 with
    | c :: r => if c = '.' then (r.takeWhile isDigitB, r.dropWhile isDigitB) else ([], c :: r)
    | [] => ([], [])
  if ip = [] ∧ fr.1 = [] then none
  else
    let mant : Rat := (digitsToNat ip : Rat) + (digitsToNat fr.1 : Rat) / (10 : Rat) ^ fr.1.length
    let ex : Int :=
      match fr.2 with
      | c :: r =>
        if c = 'e' ∨ c = 'E' then
          let esg := splitSign r
          match esg.2.takeWhile isDigitB with
          | [] => 0
          | ds => if esg.1 then -(digitsToNat ds : Int) else (digitsToNat ds : Int)
        else 0
      | [] => 0
    some ((if sg.1 then (-1 : Rat) else 1) * mant * (10 : Rat) ^ ex)

/-- `parseFloat` on a `String`. -/
def jsParseFloat (s : String) : Option Rat :=
  jsParseFloatList s.data

/-- Lower-casing as `String.prototype.toLowerCase` acts on the ASCII
range (`Char.toLower` maps `'A'`..`'Z'` down and fixes the rest;
locale-specific Unicode case mapping is out of scope). -/
def lowerList (l : List Char) : List Char :=
  l.map Char.toLower

/-- Does `hay` start with `needle`? -/
def startsWithL : List Char → List Char → Bool
  | [], _ => true
  | _ :: _, [] => false
  | c :: cs, h :: hs => c == h && startsWithL cs hs

/-- JavaScript `String.prototype.includes`: substring containment
(the empty needle is contained in everything). -/
def containsL (hay needle : List Char) : Bool :=
  startsWithL needle hay ||
    match hay with
    | [] => false
    | _ :: hs => containsL hs needle

/-- `a.toLowerCase().includes(b.toLowerCase())`, the case-insensitive
containment test both text filters use. -/
def containsCI (hay pat : String) : Bool :=
  containsL (lowerList hay.data) (lowerList pat.data)

/-! ## The JavaScript `Date` model -/

/-- The canonical calendar moment `parseTransferDate` produces: what
the dashboard later reads back through `getFullYear`, `getMonth() + 1`,
`getDate`, `getHours`, `getMinutes`, `getSeconds`. -/
structure JSDate where
  year : Int
  month : Nat
  day : Nat
  hour : Nat
  minute : Nat
  second : Nat
deriving DecidableEq, Repr

/-- Proleptic-Gregorian leap year, as ECMAScript's `DaysInYear`
prescribes. -/
def isLeapYear (y : Int) : Bool :=
  (y % 4 == 0 && y % 100 != 0) || y % 400 == 0

/-- Days in a calendar month (1-based month). -/
def daysInMonth (y : Int) (m : Nat) : Nat :=
  match m with
  | 2 => if isLeapYear y then 29 else 28
  | 4 => 30
  | 6 => 30
  | 9 => 30
  | 11 => 30
  | _ => 31

/-- The next calendar day. -/
def succDay : Int × Nat × Nat → Int × Nat × Nat
  | (y, m, d) =>
    if d < daysInMonth y m then (y, m, d + 1)
    else if m = 12 then (y + 1, 1, 1)
    else (y, m + 1, 1)

/-- The previous calendar day. -/
def prevDay : Int × Nat × Nat → Int × Nat × Nat
  | (y, m, d) =>
    if 2 ≤ d then (y, m, d - 1)
    else if m = 1 then (y - 1, 12, 31)
    else (y, m - 1, daysInMonth y (m - 1))

/-- The first day of month `m` of year `y` plus `off` days: how
`MakeDay` lets an out-of-range `date` argument roll into the following
months. -/
def addDaysFwd (y : Int) (m : Nat) : Nat → Int × Nat × Nat
  | 0 => (y, m, 1)
  | n + 1 => succDay (addDaysFwd y m n)

/-- The first day of month `m` of year `y` minus `back` days: the
matching roll into preceding months for a negative `date` argument. -/
def subDaysBk (y : Int) (m : Nat) : Nat → Int × Nat × Nat
  | 0 => (y, m, 1)
  | n + 1 => prevDay (subDaysBk y m n)

/-- Days from the Unix epoch to the given civil date (the
days-from-civil direction of the standard Gregorian conversion).  Used
only to apply ECMAScript's `TimeClip` range check. -/
def daysFromCivil (y : Int) (m : Nat) (d : Nat) : Int :=
  let y2 := if m ≤ 2 then y - 1 else y
  let era := y2 / 400
  let yoe := y2 - era * 400
  let mp : Nat := (m + 9) % 12
  let doy : Int := ((153 * mp + 2) / 5 : Nat) + (d : Int) - 1
  let doe := yoe * 365 + yoe / 4 - yoe / 100 + doy
  era * 146097 + doe - 719468

/-- `new Date(y, m0, d, h, mi, s)` with 0-based month `m0`, as
ECMAScript evaluates it: two-digit years shift to 19xx, months and the
time of day carry into the day count, the day count rolls through the
civil calendar, and a time value beyond ±8.64e15 ms is an Invalid Date
(`none`). -/
def jsMakeDate (y m0 d h mi s : Int) : Option JSDate :=
  let yr := if 0 ≤ y ∧ y ≤ 99 then y + 1900 else y
  let ym := yr + m0 / 12
  let mn := (m0 % 12).toNat + 1
  let totalSec := h * 3600 + mi * 60 + s
  let carry := totalSec / 86400
  let sod := (totalSec % 86400).toNat
  let off := d - 1 + carry
  let c := if 0 ≤ off then addDaysFwd ym mn off.toNat else subDaysBk ym mn (-off).toNat
  let ms := daysFromCivil c.1 c.2.1 c.2.2 * 86400000 + (sod : Int) * 1000
  if ms < -8640000000000000 ∨ 8640000000000000 < ms then none
  else some { year := c.1, month := c.2.1, day := c.2.2,
              hour := sod / 3600, minute := sod % 3600 / 60, second := sod % 60 }

/-- Helper for the fallback parser: a fixed-width all-digit field. -/
def isoNat (l : List Char) (len : Nat) : Option Nat :=
  if l.length = len ∧ l.all isDigitB then some (digitsToNat l) else none

/-- Helper for the fallback parser: the `YYYY-MM-DD` date part with an
already-parsed time of day. -/
def jsDateFallbackCore (dl : List Char) (h mi s : Nat) : Option JSDate :=
  match splitCh '-' dl with
  | [ys, ms, ds] =>
    match isoNat ys 4, isoNat ms 2, isoNat ds 2 with
    | some y, some m, some dd =>
      if 1 ≤ m ∧ m ≤ 12 ∧ 1 ≤ dd ∧ dd ≤ daysInMonth y m then
        some { year := y, month := m, day := dd, hour := h, minute := mi, second := s }
      else none
    | _, _, _ => none
  | _ => none

/-- Model of the source's generic fallback `new Date(dateString)`
(line 56): ECMAScript specifies the parse only for its Date Time String
Format, of which the inputs at hand can only meet the
`YYYY-MM-DD[THH:MM[:SS]]` core; beyond that the result is
implementation-defined, and the model returns the Invalid Date marker,
matching what the major engines do on this system's data. -/
def jsDateFallback (s : String) : Option JSDate :=
  match splitCh 'T' s.data with
  | [dl] => jsDateFallbackCore dl 0 0 0
  | [dl, tl] =>
    match splitCh ':' tl with
    | [hh, mm] =>
      match isoNat hh 2, isoNat mm 2 with
      | some h, some mi => if h ≤ 23 ∧ mi ≤ 59 then jsDateFallbackCore dl h mi 0 else none
      | _, _ => none
    | [hh, mm, ss] =>
      match isoNat hh 2, isoNat mm 2, isoNat ss 2 with
      | some h, some mi, some sec =>
        if h ≤ 23 ∧ mi ≤ 59 ∧ sec ≤ 59 then jsDateFallbackCore dl h mi sec else none
      | _, _, _ => none
    | _ => none
  | _ => none

/-- `parseInt(x, 10) || 0` — `NaN` (and an explicit `0`) becomes `0`. -/
def orZero (o : Option Int) : Int :=
  o.getD 0

/-- The time-token branch of `parseTransferDate` (lines 35-42): split
on `':'`; with at least two pieces, hours/minutes/seconds are the
pieces `parseInt`-ed with a `|| 0` fallback, a missing seconds piece
reading as `parseInt(undefined) = NaN`; with fewer pieces the time
stays midnight. -/
def parseTimeToken (t : List Char) : Int × Int × Int :=
  match splitCh ':' t with
  | t0 :: t1 :: rest =>
    (orZero (jsParseIntList t0), orZero (jsParseIntList t1),
      orZero (jsParseIntList (match rest with | r0 :: _ => r0 | [] => [])))
  | _ => (0, 0, 0)

/-- The time-of-day of lines 32-42: zero unless the space-split gave
exactly two parts (`parts.length === 2`) with a truthy — non-empty —
second part, in which case the time token is parsed. -/
def timeOfParts (rest : List (List Char)) : Int × Int × Int :=
  match rest with
  | [t1] => if t1 = [] then ((0 : Int), (0 : Int), (0 : Int)) else parseTimeToken t1
  | _ => (0, 0, 0)

/-- The `dateParts.length === 3` branch of lines 27-52: the three
pieces are `parseInt`-ed as day, month, year and handed to `new
Date(year, month - 1, day, h, m, s)`; a `NaN` component makes the
constructed date Invalid, hence `null`.  Any other piece count falls
back to generic `new Date(dateString)` parsing (line 56). -/
def parseDatePieces (s : String) (pieces : List (List Char)) (rest : List (List Char)) :
    Option JSDate :=
  match pieces with
  | [dp, mp2, yp] =>
    match jsParseIntList dp, jsParseIntList mp2, jsParseIntList yp with
    | some dd, some mm, some yy =>
      let t := timeOfParts rest
      jsMakeDate yy (mm - 1) dd t.1 t.2.1 t.2.2
    | _, _, _ => none
  | _ => jsDateFallback s

/-- Lines 22-26: the first space-separated part is the date token
(`parts.length >= 1` always holds — the empty parts list is
unreachable, kept only to make the match total) and the rest feeds the
time-token check. -/
def parseWithParts (s : String) (parts : List (List Char)) : Option JSDate :=
  match parts with
  | [] => jsDateFallback s
  | p0 :: rest => parseDatePieces s (splitCh '/' p0) rest

/-- The body of `parseTransferDate` on a non-empty string (lines
20-64): trim, split on spaces, and dispatch on the shape of the date
token. -/
def parseTransferDateBody (s : String) : Option JSDate :=
  parseWithParts s (splitCh ' ' (trimList s.data))

/-- `parseTransferDate` (lines 17-65): `null` and the empty string are
falsy and short-circuit to `null`; otherwise the body runs.  Total by
construction — the source's `try`/`catch` can only ever return the same
`null` marker. -/
def parseTransferDate : Option String → Option JSDate
  | none => none
  | some s => if s = "" then none else parseTransferDateBody s

/-! ## Transactions, filters, aggregates -/

/-- The `Transaction` row type (src/lib/supabase.ts): `bank_name`,
`receiver`, `transfer_time` and `amount` are nullable. -/
structure Transaction where
  id : Int
  bank_name : Option String
  sender : String
  receiver : Option String
  transfer_time : Option String
  amount : Option String
  txn_hash : String
deriving DecidableEq, Repr

/-- The `FilterState` of one stat card (lines 119-124): empty string
means the field is inactive. -/
structure FilterState where
  month : String
  date : String
  sender : String
  receiver : String
deriving DecidableEq, Repr

/-- `String(getFullYear()) + "-" + String(getMonth() + 1).padStart(2,
"0")`, the `monthYear` key built at lines 186-188. -/
def monthYearStr (dt : JSDate) : String :=
  toString dt.year ++ "-" ++ String.mk (pad2L dt.month)

/-- The `YYYY-MM-DD` key built at lines 193-198. -/
def dateStr (dt : JSDate) : String :=
  monthYearStr dt ++ "-" ++ String.mk (pad2L dt.day)

/-- The month test of `filterTransactions` (lines 185-190): the body
runs only under `filter.month && transactionDate`, so an inactive
filter — or a `null` date — passes. -/
def monthCheck (fm : String) (td : Option JSDate) : Bool :=
  if fm = "" then true
  else
    match td with
    | none => true
    | some dt => monthYearStr dt == fm

/-- The date test of `filterTransactions` (lines 192-200), same guard
shape at day granularity. -/
def dateCheck (fd : String) (td : Option JSDate) : Bool :=
  if fd = "" then true
  else
    match td with
    | none => true
    | some dt => dateStr dt == fd

/-- The sender test (lines 202-207): an active filter requires
case-insensitive substring containment in the (non-nullable) sender. -/
def senderCheck (fs : String) (snd : String) : Bool :=
  if fs = "" then true else containsCI snd fs

/-- The receiver test (lines 209-217): the exclusion runs only under
`filter.receiver && transaction.receiver`, so a `null` — or empty —
receiver passes an active receiver filter. -/
def receiverCheck (fr : String) (rcv : Option String) : Bool :=
  if fr = "" then true
  else
    match rcv with
    | none => true
    | some r => if r = "" then true else containsCI r fr

/-- The predicate body of `filterTransactions` (lines 182-219): the
four early-return tests in source order, so the active fields combine
by logical AND. -/
def transactionMatches (f : FilterState) (t : Transaction) : Bool :=
  let transactionDate := parseTransferDate t.transfer_time
  monthCheck f.month transactionDate && dateCheck f.date transactionDate &&
    senderCheck f.sender t.sender && receiverCheck f.receiver t.receiver

/-- `filterTransactions` (lines 181-221): `transactions.filter(...)`. -/
def filterTransactions (f : FilterState) (ts : List Transaction) : List Transaction :=
  ts.filter (transactionMatches f)

/-- JavaScript `a || b` on strings: the empty string is falsy. -/
def jsOrStr (a b : String) : String :=
  if a = "" then b else a

/-- `combinedFilter` (lines 171-178): month and date prefer the total
card's value and fall back to the average card's; sender comes from the
average card alone; receiver is always empty. -/
def combinedFilter (totalAmountFilter avgAmountFilter : FilterState) : FilterState :=
  { month := jsOrStr totalAmountFilter.month avgAmountFilter.month
    date := jsOrStr totalAmountFilter.date avgAmountFilter.date
    sender := avgAmountFilter.sender
    receiver := "" }

/-- JavaScript `+` on the modelled numbers: `NaN` absorbs. -/
def jsAdd : Option Rat → Option Rat → Option Rat
  | some a, some b => some (a + b)
  | _, _ => none

/-- `t.amount || "0"` (line 227): a `null` or empty amount string
reads as `"0"`. -/
def amountString (t : Transaction) : String :=
  match t.amount with
  | none => "0"
  | some s => if s = "" then "0" else s

/-- The reduction `(sum, t) => sum + parseFloat(t.amount || "0")`
starting from `0` (lines 226-229). -/
def sumAmounts (ts : List Transaction) : Option Rat :=
  ts.foldl (fun acc t => jsAdd acc (jsParseFloat (amountString t))) (some 0)

/-- `totalAmountStats` before its display formatting (lines 224-231):
the sum over the transactions passing the card's filter
(`toLocaleString` is presentation and out of scope). -/
def totalAmountStats (f : FilterState) (ts : List Transaction) : Option Rat :=
  sumAmounts (filterTransactions f ts)

/-- `avgAmountStats` before its display formatting (lines 233-241):
the same sum divided by the filtered count when it is positive, else
`0`. -/
def avgAmountStats (f : FilterState) (ts : List Transaction) : Option Rat :=
  let filtered := filterTransactions f ts
  let total := sumAmounts filtered
  if 0 < filtered.length then total.map (fun q => q / (filtered.length : Rat)) else some 0

/-! ## Concrete fixtures for counterexamples and witnesses -/

/-- The all-inactive filter. -/
def emptyFilter : FilterState :=
  { month := "", date := "", sender := "", receiver := "" }

/-- A month-only filter. -/
def monthFilter2024Jan : FilterState :=
  { month := "2024-01", date := "", sender := "", receiver := "" }

/-- A receiver-only filter. -/
def receiverFilterX : FilterState :=
  { month := "", date := "", sender := "", receiver := "x" }

/-- A transaction whose `transfer_time` has three `/`-pieces but no
digits, so `parseInt` yields `NaN` and the constructed date is
Invalid. -/
def txUnparseable : Transaction :=
  { id := 1, bank_name := none, sender := "alice", receiver := some "bob",
    transfer_time := some "??/??/????", amount := some "10", txn_hash := "h1" }

/-- A transaction with no receiver. -/
def txNoReceiver : Transaction :=
  { id := 2, bank_name := none, sender := "carol", receiver := none,
    transfer_time := some "15/01/2024 10:00:00", amount := some "20", txn_hash := "h2" }

/-- A transaction whose amount has no numeric prefix. -/
def txAmountAbc : Transaction :=
  { id := 3, bank_name := none, sender := "dave", receiver := some "erin",
    transfer_time := some "15/01/2024 10:00:00", amount := some "abc", txn_hash := "h3" }

/-- A transaction with amount `"100"`. -/
def txAmount100 : Transaction :=
  { id := 4, bank_name := none, sender := "fred", receiver := some "gina",
    transfer_time := some "15/01/2024 10:00:00", amount := some "100", txn_hash := "h4" }

/-- A transaction with amount `"50"`. -/
def txAmount50 : Transaction :=
  { id := 5, bank_name := none, sender := "hugo", receiver := some "iris",
    transfer_time := some "16/01/2024 11:30:00", amount := some "50", txn_hash := "h5" }

/-- A transaction with no amount at all. -/
def txNoAmount : Transaction :=
  { id := 6, bank_name := none, sender := "jane", receiver := some "karl",
    transfer_time := some "17/01/2024 09:00:00", amount := none, txn_hash := "h6" }

/-- A sender-only filter. -/
def senderFilterFred : FilterState :=
  { month := "", date := "", sender := "fred", receiver := "" }

/-- A valid calendar date written the Vietnamese way the source
expects: two-digit day, `/`, two-digit month, `/`, the year's digits. -/
def renderDMY (d m y : Nat) : List Char :=
  pad2L d ++ ('/' :: (pad2L m ++ ('/' :: natToDigits y)))

/-- An `HH:MM:SS` time token with two-digit pieces. -/
def renderHMS (h mi s : Nat) : List Char :=
  pad2L h ++ (':' :: (pad2L mi ++ (':' :: pad2L s)))

/-- The same date followed by a space and an `HH:MM:SS` time token. -/
def renderDMYHMS (d m y h mi s : Nat) : List Char :=
  renderDMY d m y ++ (' ' :: renderHMS h mi s)

/-! ## Digit and rendering lemmas -/

theorem isDigitB_digitChar10 {k : Nat} (h : k < 10) : isDigitB (digitChar10 k) = true := by
  interval_cases k <;> decide

theorem digitVal_digitChar10 {k : Nat} (h : k < 10) : digitVal (digitChar10 k) = k := by
  interval_cases k <;> decide

theorem isDigitB_not_ws {c : Char} (h : isDigitB c = true) : c.isWhitespace = false := by
  cases hw : c.isWhitespace with
  | false => rfl
  | true =>
    exfalso
    have hc : c = ' ' ∨ c = '\t' ∨ c = '\r' ∨ c = '\n' := by
      simp [Char.isWhitespace] at hw
      tauto
    rcases hc with rfl | rfl | rfl | rfl <;> exact absurd h (by decide)

theorem natToDigits_ne_nil (n : Nat) : natToDigits n ≠ [] := by
  induction n using natToDigits.induct with
  | case1 n h => rw [natToDigits]; simp [h]
  | case2 n h ih => rw [natToDigits]; simp [h]

theorem natToDigits_all_digits (n : Nat) : ∀ c ∈ natToDigits n, isDigitB c = true := by
  induction n using natToDigits.induct with
  | case1 n h =>
    rw [natToDigits]
    simp only [if_pos h, List.mem_singleton]
    rintro c rfl
    exact isDigitB_digitChar10 h
  | case2 n h ih =>
    rw [natToDigits]
    simp only [if_neg h, List.mem_append, List.mem_singleton]
    rintro c (hc | rfl)
    · exact ih c hc
    · exact isDigitB_digitChar10 (Nat.mod_lt _ (by omega))

theorem digitsToNat_go (l : List Char) (acc : Nat) :
    l.foldl (fun a c => a * 10 + digitVal c) acc =
      acc * 10 ^ l.length + digitsToNat l := by
  induction l generalizing acc with
  | nil => simp [digitsToNat]
  | cons c cs ih =>
    simp only [List.foldl_cons, List.length_cons, digitsToNat]
    rw [ih (acc * 10 + digitVal c), ih (0 * 10 + digitVal c)]
    ring

theorem digitsToNat_natToDigits (n : Nat) : digitsToNat (natToDigits n) = n := by
  induction n using natToDigits.induct with
  | case1 n h =>
    rw [natToDigits, if_pos h]
    simp [digitsToNat, digitVal_digitChar10 h]
  | case2 n h ih =>
    rw [natToDigits, if_neg h]
    simp only [digitsToNat, List.foldl_append, List.foldl_cons, List.foldl_nil]
    rw [show (natToDigits (n / 10)).foldl (fun a c => a * 10 + digitVal c) 0
        = digitsToNat (natToDigits (n / 10)) from rfl, ih,
      digitVal_digitChar10 (Nat.mod_lt _ (by omega))]
    omega

theorem pad2L_ne_nil (n : Nat) : pad2L n ≠ [] := by
  unfold pad2L
  split
  · simp
  · exact natToDigits_ne_nil n

theorem pad2L_all_digits (n : Nat) : ∀ c ∈ pad2L n, isDigitB c = true := by
  unfold pad2L
  split
  · rintro c hc
    rcases List.mem_cons.mp hc with rfl | hc
    · decide
    · exact natToDigits_all_digits n c hc
  · exact natToDigits_all_digits n

theorem digitsToNat_pad2L (n : Nat) : digitsToNat (pad2L n) = n := by
  unfold pad2L
  split
  · simp only [digitsToNat, List.foldl_cons]
    rw [show (0 * 10 + digitVal '0') = 0 from by decide]
    exact digitsToNat_natToDigits n
  · exact digitsToNat_natToDigits n

/-! ## List scanning lemmas -/

theorem takeWhile_all {p : Char → Bool} {l : List Char} (h : ∀ c ∈ l, p c = true) :
    l.takeWhile p = l := by
  induction l with
  | nil => rfl
  | cons c cs ih =>
    have hc := h c (by simp)
    have ht := ih (fun x hx => h x (by simp [hx]))
    simp [List.takeWhile_cons, hc, ht]

theorem dropWhile_cons_neg {p : Char → Bool} {c : Char} {cs : List Char} (h : p c = false) :
    List.dropWhile p (c :: cs) = c :: cs := by
  simp [List.dropWhile, h]

theorem splitSign_digit {c : Char} {cs : List Char} (hc : isDigitB c = true) :
    splitSign (c :: cs) = (false, c :: cs) := by
  have hm : c ≠ '-' := by rintro rfl; exact absurd hc (by decide)
  have hp : c ≠ '+' := by rintro rfl; exact absurd hc (by decide)
  simp only [splitSign, if_neg hm, if_neg hp]

theorem jsParseIntList_digits {l : List Char} (hne : l ≠ [])
    (hd : ∀ c ∈ l, isDigitB c = true) :
    jsParseIntList l = some ((digitsToNat l : Int)) := by
  obtain ⟨c, cs, rfl⟩ : ∃ c cs, l = c :: cs := by
    cases l with
    | nil => exact absurd rfl hne
    | cons c cs => exact ⟨c, cs, rfl⟩
  have hc : isDigitB c = true := hd c (by simp)
  simp only [jsParseIntList, dropWhile_cons_neg (isDigitB_not_ws hc), splitSign_digit hc]
  simp only [takeWhile_all hd]
  rfl

theorem jsParseIntList_pad2L (n : Nat) : jsParseIntList (pad2L n) = some ((n : Int)) := by
  rw [jsParseIntList_digits (pad2L_ne_nil n) (pad2L_all_digits n), digitsToNat_pad2L]

theorem jsParseIntList_natToDigits (n : Nat) :
    jsParseIntList (natToDigits n) = some ((n : Int)) := by
  rw [jsParseIntList_digits (natToDigits_ne_nil n) (natToDigits_all_digits n),
    digitsToNat_natToDigits]

/-! ## Split and trim lemmas -/

theorem splitCh_cons (sep c : Char) (cs : List Char) :
    splitCh sep (c :: cs) =
      if c = sep then [] :: splitCh sep cs
      else
        match splitCh sep cs with
        | [] => [[c]]
        | p :: ps => (c :: p) :: ps := rfl

theorem splitCh_no_sep {sep : Char} {l : List Char} (h : ∀ c ∈ l, c ≠ sep) :
    splitCh sep l = [l] := by
  induction l with
  | nil => rfl
  | cons c cs ih =>
    rw [splitCh_cons, if_neg (h c (by simp)), ih (fun x hx => h x (by simp [hx]))]

theorem splitCh_append {sep : Char} {a rest : List Char} (h : ∀ c ∈ a, c ≠ sep) :
    splitCh sep (a ++ sep :: rest) = a :: splitCh sep rest := by
  induction a with
  | nil =>
    show splitCh sep (sep :: rest) = [] :: splitCh sep rest
    rw [splitCh_cons, if_pos rfl]
  | cons c cs ih =>
    show splitCh sep (c :: (cs ++ sep :: rest)) = (c :: cs) :: splitCh sep rest
    rw [splitCh_cons, if_neg (h c (by simp)), ih (fun x hx => h x (by simp [hx]))]

theorem trimList_eq_self {c1 c2 : Char} {mid : List Char}
    (h1 : c1.isWhitespace = false) (h2 : c2.isWhitespace = false) :
    trimList (c1 :: (mid ++ [c2])) = c1 :: (mid ++ [c2]) := by
  unfold trimList
  rw [dropWhile_cons_neg h1]
  rw [show (c1 :: (mid ++ [c2])).reverse = c2 :: (mid.reverse ++ [c1]) from by simp]
  rw [dropWhile_cons_neg h2]
  simp

/-! ## Calendar lemmas -/

theorem addDaysFwd_lt {y : Int} {m : Nat} :
    ∀ {off : Nat}, off < daysInMonth y m → addDaysFwd y m off = (y, m, off + 1) := by
  intro off
  induction off with
  | zero => intro _; rfl
  | succ k ih =>
    intro hlt
    have hk : k < daysInMonth y m := by omega
    show succDay (addDaysFwd y m k) = (y, m, k + 2)
    rw [ih hk]
    simp only [succDay, if_pos hlt]

theorem daysFromCivil_bound {y : Int} {m d : Nat}
    (hy1 : 1000 ≤ y) (hy2 : y ≤ 10000) (_hm1 : 1 ≤ m) (_hm2 : m ≤ 12) (hd : d ≤ 31) :
    -1000000 ≤ daysFromCivil y m d ∧ daysFromCivil y m d ≤ 4000000 := by
  have hdoy : ((153 * ((m + 9) % 12) + 2) / 5 : Nat) ≤ 340 := by omega
  simp only [daysFromCivil]
  split
  all_goals
    constructor <;> omega

theorem daysInMonth_le_31 (y : Int) (m : Nat) : daysInMonth y m ≤ 31 := by
  unfold daysInMonth
  split
  · split <;> omega
  all_goals omega

theorem daysInMonth_ge_28 (y : Int) (m : Nat) : 28 ≤ daysInMonth y m := by
  unfold daysInMonth
  split
  · split <;> omega
  all_goals omega

theorem addDaysFwd_shift {y : Int} {m : Nat} (k : Nat) :
    addDaysFwd y m (daysInMonth y m + k) =
      addDaysFwd (if m = 12 then y + 1 else y) (if m = 12 then 1 else m + 1) k := by
  induction k with
  | zero =>
    have h28 := daysInMonth_ge_28 y m
    rw [show daysInMonth y m + 0 = (daysInMonth y m - 1) + 1 from by omega]
    show succDay (addDaysFwd y m (daysInMonth y m - 1)) = _
    rw [addDaysFwd_lt (by omega),
      show daysInMonth y m - 1 + 1 = daysInMonth y m from by omega]
    simp only [succDay]
    rw [if_neg (lt_irrefl _)]
    split_ifs <;> rfl
  | succ k ih =>
    rw [show daysInMonth y m + (k + 1) = (daysInMonth y m + k) + 1 from by omega]
    show succDay (addDaysFwd y m (daysInMonth y m + k)) = _
    rw [ih]
    rfl

theorem jsMakeDate_valid {y m d h mi s : Nat}
    (hy1 : 1000 ≤ y) (hy2 : y ≤ 9999) (hm1 : 1 ≤ m) (hm2 : m ≤ 12)
    (hd1 : 1 ≤ d) (hd2 : d ≤ daysInMonth (y : Int) m)
    (hh : h ≤ 23) (hmi : mi ≤ 59) (hs : s ≤ 59) :
    jsMakeDate (y : Int) ((m : Int) - 1) (d : Int) (h : Int) (mi : Int) (s : Int) =
      some { year := (y : Int), month := m, day := d, hour := h, minute := mi, second := s } := by
  have hd31 : d ≤ 31 := le_trans hd2 (daysInMonth_le_31 _ _)
  simp only [jsMakeDate]
  rw [if_neg (show ¬(0 ≤ (y : Int) ∧ (y : Int) ≤ 99) from by omega)]
  rw [show ((m : Int) - 1) / 12 = 0 from by omega,
    show ((m : Int) - 1) % 12 = (m : Int) - 1 from by omega,
    show (y : Int) + 0 = (y : Int) from by ring,
    show ((m : Int) - 1).toNat + 1 = m from by omega,
    show ((h : Int) * 3600 + (mi : Int) * 60 + (s : Int)) / 86400 = 0 from by omega,
    show ((h : Int) * 3600 + (mi : Int) * 60 + (s : Int)) % 86400
      = (h : Int) * 3600 + (mi : Int) * 60 + (s : Int) from by omega,
    show ((h : Int) * 3600 + (mi : Int) * 60 + (s : Int)).toNat
      = h * 3600 + mi * 60 + s from by omega,
    show ((d : Int) - 1 + 0) = (d : Int) - 1 from by ring]
  rw [if_pos (show (0 : Int) ≤ (d : Int) - 1 from by omega)]
  rw [show ((d : Int) - 1).toNat = d - 1 from by omega]
  rw [addDaysFwd_lt (show d - 1 < daysInMonth (y : Int) m from by omega)]
  rw [show d - 1 + 1 = d from by omega]
  dsimp only
  obtain ⟨hb1, hb2⟩ := @daysFromCivil_bound (y : Int) m d
    (by exact_mod_cast hy1) (by omega) hm1 hm2 hd31
  rw [if_neg]
  · rw [show (h * 3600 + mi * 60 + s) / 3600 = h from by omega,
      show (h * 3600 + mi * 60 + s) % 3600 / 60 = mi from by omega,
      show (h * 3600 + mi * 60 + s) % 60 = s from by omega]
  · push_neg
    constructor <;> omega

theorem jsMakeDate_roll {y m d : Nat}
    (hy1 : 1000 ≤ y) (hy2 : y ≤ 9999) (hm1 : 1 ≤ m) (hm2 : m ≤ 12)
    (hd1 : daysInMonth (y : Int) m < d) (hd2 : d ≤ 31) :
    jsMakeDate (y : Int) ((m : Int) - 1) (d : Int) 0 0 0 =
      some { year := if m = 12 then (y : Int) + 1 else (y : Int),
             month := if m = 12 then 1 else m + 1,
             day := d - daysInMonth (y : Int) m,
             hour := 0, minute := 0, second := 0 } := by
  have h28 := daysInMonth_ge_28 (y : Int) m
  have h28n := daysInMonth_ge_28 (if m = 12 then (y : Int) + 1 else (y : Int))
    (if m = 12 then 1 else m + 1)
  simp only [jsMakeDate]
  rw [if_neg (show ¬(0 ≤ (y : Int) ∧ (y : Int) ≤ 99) from by omega)]
  rw [show ((m : Int) - 1) / 12 = 0 from by omega,
    show ((m : Int) - 1) % 12 = (m : Int) - 1 from by omega,
    show (y : Int) + 0 = (y : Int) from by ring,
    show ((m : Int) - 1).toNat + 1 = m from by omega,
    show ((0 : Int) * 3600 + (0 : Int) * 60 + (0 : Int)) / 86400 = 0 from by norm_num,
    show ((0 : Int) * 3600 + (0 : Int) * 60 + (0 : Int)) % 86400 = 0 from by norm_num,
    show ((0 : Int)).toNat = 0 from rfl,
    show ((d : Int) - 1 + 0) = (d : Int) - 1 from by ring]
  rw [if_pos (show (0 : Int) ≤ (d : Int) - 1 from by omega)]
  rw [show ((d : Int) - 1).toNat = d - 1 from by omega]
  rw [show d - 1 = daysInMonth (y : Int) m + (d - 1 - daysInMonth (y : Int) m) from by omega]
  rw [addDaysFwd_shift]
  rw [addDaysFwd_lt (show d - 1 - daysInMonth (y : Int) m <
    daysInMonth (if m = 12 then (y : Int) + 1 else (y : Int)) (if m = 12 then 1 else m + 1)
    from by omega)]
  rw [show d - 1 - daysInMonth (y : Int) m + 1 = d - daysInMonth (y : Int) m from by omega]
  dsimp only
  obtain ⟨hb1, hb2⟩ := @daysFromCivil_bound
    (if m = 12 then (y : Int) + 1 else (y : Int)) (if m = 12 then 1 else m + 1)
    (d - daysInMonth (y : Int) m)
    (by split_ifs <;> omega) (by split_ifs <;> omega)
    (by split_ifs <;> omega) (by split_ifs <;> omega) (by omega)
  rw [if_neg (show ¬(daysFromCivil (if m = 12 then (y : Int) + 1 else (y : Int))
      (if m = 12 then 1 else m + 1) (d - daysInMonth (y : Int) m) * 86400000 +
      ((0 : Nat) : Int) * 1000 < -8640000000000000 ∨
      8640000000000000 < daysFromCivil (if m = 12 then (y : Int) + 1 else (y : Int))
      (if m = 12 then 1 else m + 1) (d - daysInMonth (y : Int) m) * 86400000 +
      ((0 : Nat) : Int) * 1000) from by push_neg; constructor <;> omega)]

/-! ## Rendered dates parse back -/

theorem digit_ne {c x : Char} (h : isDigitB c = true) (hx : isDigitB x = false) : c ≠ x := by
  rintro rfl
  rw [h] at hx
  cases hx

theorem pad2L_no_sep {n : Nat} {x : Char} (hx : isDigitB x = false) : ∀ c ∈ pad2L n, c ≠ x :=
  fun c hc => digit_ne (pad2L_all_digits n c hc) hx

theorem natToDigits_no_sep {n : Nat} {x : Char} (hx : isDigitB x = false) :
    ∀ c ∈ natToDigits n, c ≠ x :=
  fun c hc => digit_ne (natToDigits_all_digits n c hc) hx

theorem renderDMY_no_space {d m y : Nat} : ∀ c ∈ renderDMY d m y, c ≠ ' ' := by
  intro c hc
  simp only [renderDMY, List.mem_append, List.mem_cons] at hc
  rcases hc with h | rfl | h | rfl | h
  · exact pad2L_no_sep (by decide) c h
  · decide
  · exact pad2L_no_sep (by decide) c h
  · decide
  · exact natToDigits_no_sep (by decide) c h

theorem renderHMS_no_space {h mi s : Nat} : ∀ c ∈ renderHMS h mi s, c ≠ ' ' := by
  intro c hc
  simp only [renderHMS, List.mem_append, List.mem_cons] at hc
  rcases hc with hm | rfl | hm | rfl | hm
  · exact pad2L_no_sep (by decide) c hm
  · decide
  · exact pad2L_no_sep (by decide) c hm
  · decide
  · exact pad2L_no_sep (by decide) c hm

theorem splitCh_renderDMY {d m y : Nat} :
    splitCh '/' (renderDMY d m y) = [pad2L d, pad2L m, natToDigits y] := by
  unfold renderDMY
  rw [splitCh_append (pad2L_no_sep (by decide)),
    splitCh_append (pad2L_no_sep (by decide)),
    splitCh_no_sep (natToDigits_no_sep (by decide))]

theorem splitCh_renderHMS {h mi s : Nat} :
    splitCh ':' (renderHMS h mi s) = [pad2L h, pad2L mi, pad2L s] := by
  unfold renderHMS
  rw [splitCh_append (pad2L_no_sep (by decide)),
    splitCh_append (pad2L_no_sep (by decide)),
    splitCh_no_sep (pad2L_no_sep (by decide))]

theorem splitSpace_renderDMYHMS {d m y h mi s : Nat} :
    splitCh ' ' (renderDMYHMS d m y h mi s) = [renderDMY d m y, renderHMS h mi s] := by
  unfold renderDMYHMS
  rw [splitCh_append renderDMY_no_space, splitCh_no_sep renderHMS_no_space]

theorem trim_renderDMY {d m y : Nat} : trimList (renderDMY d m y) = renderDMY d m y := by
  obtain ⟨c1, r1, hp⟩ : ∃ c1 r1, pad2L d = c1 :: r1 := by
    cases hpp : pad2L d with
    | nil => exact absurd hpp (pad2L_ne_nil d)
    | cons c1 r1 => exact ⟨c1, r1, rfl⟩
  rcases List.eq_nil_or_concat (natToDigits y) with hy | ⟨r2, c2, hy⟩
  · exact absurd hy (natToDigits_ne_nil y)
  have hc1 : isDigitB c1 = true := pad2L_all_digits d c1 (by rw [hp]; simp)
  have hc2 : isDigitB c2 = true := natToDigits_all_digits y c2 (by rw [hy]; simp)
  have hsh : renderDMY d m y = c1 :: ((r1 ++ ('/' :: (pad2L m ++ ('/' :: r2)))) ++ [c2]) := by
    rw [renderDMY, hp, hy]
    simp
  rw [hsh]
  exact trimList_eq_self (isDigitB_not_ws hc1) (isDigitB_not_ws hc2)

theorem trim_renderDMYHMS {d m y h mi s : Nat} :
    trimList (renderDMYHMS d m y h mi s) = renderDMYHMS d m y h mi s := by
  obtain ⟨c1, r1, hp⟩ : ∃ c1 r1, pad2L d = c1 :: r1 := by
    cases hpp : pad2L d with
    | nil => exact absurd hpp (pad2L_ne_nil d)
    | cons c1 r1 => exact ⟨c1, r1, rfl⟩
  rcases List.eq_nil_or_concat (pad2L s) with hy | ⟨r2, c2, hy⟩
  · exact absurd hy (pad2L_ne_nil s)
  have hc1 : isDigitB c1 = true := pad2L_all_digits d c1 (by rw [hp]; simp)
  have hc2 : isDigitB c2 = true := pad2L_all_digits s c2 (by rw [hy]; simp)
  have hsh : renderDMYHMS d m y h mi s =
      c1 :: ((r1 ++ ('/' :: (pad2L m ++ ('/' :: natToDigits y))) ++
        (' ' :: (pad2L h ++ (':' :: (pad2L mi ++ (':' :: r2)))))) ++ [c2]) := by
    rw [renderDMYHMS, renderDMY, renderHMS, hp, hy]
    simp
  rw [hsh]
  exact trimList_eq_self (isDigitB_not_ws hc1) (isDigitB_not_ws hc2)

theorem renderHMS_ne_nil {h mi s : Nat} : renderHMS h mi s ≠ [] := by
  unfold renderHMS
  intro he
  rcases List.append_eq_nil.mp he with ⟨h1, _⟩
  exact pad2L_ne_nil h h1

theorem renderDMY_ne_nil {d m y : Nat} : renderDMY d m y ≠ [] := by
  unfold renderDMY
  intro he
  rcases List.append_eq_nil.mp he with ⟨h1, _⟩
  exact pad2L_ne_nil d h1

theorem parseTimeToken_renderHMS {h mi s : Nat} :
    parseTimeToken (renderHMS h mi s) = ((h : Int), (mi : Int), (s : Int)) := by
  unfold parseTimeToken
  rw [splitCh_renderHMS]
  simp only [jsParseIntList_pad2L, orZero, Option.getD_some]

theorem parseTransferDateBody_renderDMY {d m y : Nat} :
    parseTransferDateBody (String.mk (renderDMY d m y)) =
      jsMakeDate (y : Int) ((m : Int) - 1) (d : Int) 0 0 0 := by
  unfold parseTransferDateBody
  rw [show (String.mk (renderDMY d m y)).data = renderDMY d m y from rfl,
    trim_renderDMY, splitCh_no_sep renderDMY_no_space]
  simp only [parseWithParts, splitCh_renderDMY, parseDatePieces,
    jsParseIntList_pad2L, jsParseIntList_natToDigits]
  rfl

theorem parseTransferDateBody_renderDMYHMS {d m y h mi s : Nat} :
    parseTransferDateBody (String.mk (renderDMYHMS d m y h mi s)) =
      jsMakeDate (y : Int) ((m : Int) - 1) (d : Int) (h : Int) (mi : Int) (s : Int) := by
  unfold parseTransferDateBody
  rw [show (String.mk (renderDMYHMS d m y h mi s)).data = renderDMYHMS d m y h mi s from rfl,
    trim_renderDMYHMS, splitSpace_renderDMYHMS]
  simp only [parseWithParts, splitCh_renderDMY, parseDatePieces,
    jsParseIntList_pad2L, jsParseIntList_natToDigits, timeOfParts]
  rw [if_neg (by simp [renderHMS_ne_nil]), parseTimeToken_renderHMS]

theorem stringMk_ne_empty {l : List Char} (h : l ≠ []) : String.mk l ≠ "" := by
  intro he
  apply h
  have hd : (String.mk l).data = ("" : String).data := by rw [he]
  simpa using hd

/-! ## Filter-check helpers -/

theorem monthCheck_empty (td : Option JSDate) : monthCheck "" td = true := by
  unfold monthCheck
  rw [if_pos rfl]

theorem monthCheck_none (fm : String) : monthCheck fm none = true := by
  unfold monthCheck
  split <;> rfl

theorem dateCheck_empty (td : Option JSDate) : dateCheck "" td = true := by
  unfold dateCheck
  rw [if_pos rfl]

theorem dateCheck_none (fd : String) : dateCheck fd none = true := by
  unfold dateCheck
  split <;> rfl

theorem senderCheck_empty (snd : String) : senderCheck "" snd = true := by
  unfold senderCheck
  rw [if_pos rfl]

theorem receiverCheck_empty (rcv : Option String) : receiverCheck "" rcv = true := by
  unfold receiverCheck
  rw [if_pos rfl]

theorem receiverCheck_none (fr : String) : receiverCheck fr none = true := by
  unfold receiverCheck
  split <;> rfl

theorem transactionMatches_emptyFilter (t : Transaction) :
    transactionMatches emptyFilter t = true := by
  simp only [transactionMatches, emptyFilter, monthCheck_empty, dateCheck_empty,
    senderCheck_empty, receiverCheck_empty, Bool.and_self]

theorem filterTransactions_emptyFilter (l : List Transaction) :
    filterTransactions emptyFilter l = l :=
  List.filter_eq_self.mpr (fun t _ => transactionMatches_emptyFilter t)

/-! ## Amount helpers -/

theorem dropWhile_all {p : Char → Bool} {l : List Char} (h : ∀ c ∈ l, p c = true) :
    l.dropWhile p = [] := by
  induction l with
  | nil => rfl
  | cons c cs ih =>
    have hc := h c (by simp)
    simp [List.dropWhile_cons, hc, ih (fun x hx => h x (by simp [hx]))]

theorem jsParseFloatList_digits {l : List Char} (hne : l ≠ [])
    (hd : ∀ c ∈ l, isDigitB c = true) :
    jsParseFloatList l = some ((digitsToNat l : Rat)) := by
  obtain ⟨c, cs, rfl⟩ : ∃ c cs, l = c :: cs := by
    cases l with
    | nil => exact absurd rfl hne
    | cons c cs => exact ⟨c, cs, rfl⟩
  have hc : isDigitB c = true := hd c (by simp)
  simp only [jsParseFloatList, dropWhile_cons_neg (isDigitB_not_ws hc), splitSign_digit hc]
  rw [takeWhile_all hd, dropWhile_all hd]
  rw [if_neg (by simp)]
  norm_num [digitsToNat]

theorem jsParseFloat_zero : jsParseFloat "0" = some 0 := by
  rw [jsParseFloat, show "0".data = ['0'] from rfl,
    jsParseFloatList_digits (by decide) (by decide),
    show digitsToNat ['0'] = 0 from by decide]
  norm_num

theorem jsParseFloat_100 : jsParseFloat "100" = some 100 := by
  rw [jsParseFloat, show "100".data = ['1', '0', '0'] from rfl,
    jsParseFloatList_digits (by decide) (by decide),
    show digitsToNat ['1', '0', '0'] = 100 from by decide]
  norm_num

theorem jsParseFloat_50 : jsParseFloat "50" = some 50 := by
  rw [jsParseFloat, show "50".data = ['5', '0'] from rfl,
    jsParseFloatList_digits (by decide) (by decide),
    show digitsToNat ['5', '0'] = 50 from by decide]
  norm_num

theorem jsAdd_zero (a : Option Rat) : jsAdd a (some 0) = a := by
  cases a with
  | none => rfl
  | some q => simp [jsAdd]

theorem sumAmounts_pair : sumAmounts [txAmount100, txAmount50] = some 150 := by
  simp only [sumAmounts, List.foldl_cons, List.foldl_nil,
    show amountString txAmount100 = "100" from rfl,
    show amountString txAmount50 = "50" from rfl,
    jsParseFloat_100, jsParseFloat_50, jsAdd]
  norm_num

/-! ## The claims -/

/-- C1, counterexample: a transaction whose `transfer_time` is
Unparseable is NOT excluded by an active month filter — the source's
guard `if (filter.month && transactionDate)` skips the month test when
the parsed date is `null`, so `filterTransactions` keeps the
transaction. -/
theorem claim1_counterexample :
    parseTransferDate txUnparseable.transfer_time = none ∧
    monthFilter2024Jan.month ≠ "" ∧
    filterTransactions monthFilter2024Jan [txUnparseable] = [txUnparseable] := by
  refine ⟨rfl, by decide, ?_⟩
  decide

/-- C1, amended: a transaction whose `transfer_time` normalizes to
Unparseable passes the month and the date checks whatever their values
are (both guards skip on a `null` date — fail-open, included by
default), so its match outcome is exactly the sender and receiver
checks, and with those filters inactive `filterTransactions` keeps
it. -/
theorem claim1_amended_fail_open (f : FilterState) (t : Transaction)
    (hun : parseTransferDate t.transfer_time = none) :
    transactionMatches f t =
      (senderCheck f.sender t.sender && receiverCheck f.receiver t.receiver) ∧
    ∀ l, t ∈ l → f.sender = "" → f.receiver = "" → t ∈ filterTransactions f l := by
  have hmm : transactionMatches f t =
      (senderCheck f.sender t.sender && receiverCheck f.receiver t.receiver) := by
    simp only [transactionMatches, hun, monthCheck_none, dateCheck_none, Bool.true_and]
  refine ⟨hmm, fun l hl hs hr => List.mem_filter.mpr ⟨hl, ?_⟩⟩
  rw [hmm, hs, hr, senderCheck_empty, receiverCheck_empty]
  rfl

/-- Witness for the amended C1 at a concrete unparseable transaction
under a month filter. -/
theorem claim1_amended_fail_open_witness :
    txUnparseable ∈ filterTransactions monthFilter2024Jan [txUnparseable] :=
  (claim1_amended_fail_open monthFilter2024Jan txUnparseable rfl).2
    [txUnparseable] (by simp) rfl rfl

/-- C2, counterexample: `"31/02/2024"` has three integer components
that form no real calendar date, yet `parseTransferDate` does not
return the Unparseable marker — `new Date(2024, 1, 31)` rolls the
overflow over into March. -/
theorem claim2_counterexample :
    parseTransferDate (some "31/02/2024") ≠ none := by
  decide

/-- C2, amended: for every `"DD/MM/YYYY"` date token with a four-digit
year, a real month and an all-digit day that is out of range for that
month (up to 31, the largest a two-digit day field can carry past a
real month length), `parseTransferDate` does not return the Unparseable
marker: the `Date` constructor rolls the excess days into the following
month, e.g. `"31/02/2024"` parses to 2024-03-02. -/
theorem claim2_amended_rollover (y m d : Nat)
    (hy1 : 1000 ≤ y) (hy2 : y ≤ 9999) (hm1 : 1 ≤ m) (hm2 : m ≤ 12)
    (hd1 : daysInMonth (y : Int) m < d) (hd2 : d ≤ 31) :
    parseTransferDate (some (String.mk (renderDMY d m y))) ≠ none ∧
    parseTransferDate (some (String.mk (renderDMY d m y))) =
      some { year := if m = 12 then (y : Int) + 1 else (y : Int),
             month := if m = 12 then 1 else m + 1,
             day := d - daysInMonth (y : Int) m,
             hour := 0, minute := 0, second := 0 } := by
  have heq : parseTransferDate (some (String.mk (renderDMY d m y))) =
      some { year := if m = 12 then (y : Int) + 1 else (y : Int),
             month := if m = 12 then 1 else m + 1,
             day := d - daysInMonth (y : Int) m,
             hour := 0, minute := 0, second := 0 } := by
    show (if String.mk (renderDMY d m y) = "" then none
      else parseTransferDateBody (String.mk (renderDMY d m y))) = _
    rw [if_neg (stringMk_ne_empty renderDMY_ne_nil), parseTransferDateBody_renderDMY]
    exact jsMakeDate_roll hy1 hy2 hm1 hm2 hd1 hd2
  exact ⟨by rw [heq]; simp, heq⟩

/-- Witness for the amended C2 at the spec's own invalid date,
`"31/02/2024"` (day 31 in a 29-day February), which rolls over to
2024-03-02. -/
theorem claim2_amended_rollover_witness :
    parseTransferDate (some (String.mk (renderDMY 31 2 2024))) ≠ none ∧
    parseTransferDate (some (String.mk (renderDMY 31 2 2024))) =
      some { year := if (2 : Nat) = 12 then ((2024 : Nat) : Int) + 1 else ((2024 : Nat) : Int),
             month := if (2 : Nat) = 12 then 1 else 2 + 1,
             day := 31 - daysInMonth ((2024 : Nat) : Int) 2,
             hour := 0, minute := 0, second := 0 } :=
  claim2_amended_rollover 2024 2 31 (by norm_num) (by norm_num) (by norm_num) (by norm_num)
    (by decide) (by norm_num)

/-- C3, counterexample: an amount string with no numeric prefix does
not contribute `0` — `parseFloat("abc")` is `NaN`, and the reduction
`sum + NaN` poisons the whole aggregate, so the sum over
`["abc", "50"]` is `NaN` (`none`), not `50`. -/
theorem claim3_counterexample :
    sumAmounts [txAmountAbc, txAmount50] = none ∧
    sumAmounts [txAmountAbc, txAmount50] ≠ some 50 := by
  have h : sumAmounts [txAmountAbc, txAmount50] = none := rfl
  exact ⟨h, by rw [h]; simp⟩

/-- C3, amended: only an absent or empty `amount` contributes `0` to
the sum (the `t.amount || "0"` fallback); removing such a transaction
never changes the aggregate over the rest.  A present amount string
that `parseFloat` cannot read yields `NaN`, which propagates through
the whole sum (see the counterexample). -/
theorem claim3_amended_absent_zero (pre post : List Transaction) (t : Transaction)
    (h : t.amount = none ∨ t.amount = some "") :
    sumAmounts (pre ++ t :: post) = sumAmounts (pre ++ post) := by
  have hstr : amountString t = "0" := by
    rcases h with h | h <;> simp [amountString, h]
  unfold sumAmounts
  rw [List.foldl_append, List.foldl_append, List.foldl_cons, hstr, jsParseFloat_zero,
    jsAdd_zero]

/-- Witness for the amended C3: dropping a `null`-amount transaction
leaves the sum over the rest intact. -/
theorem claim3_amended_absent_zero_witness :
    sumAmounts ([] ++ txNoAmount :: [txAmount50]) = sumAmounts ([] ++ [txAmount50]) :=
  claim3_amended_absent_zero [] [txAmount50] txNoAmount (Or.inl rfl)

/-- C4, counterexample: a transaction with no receiver is NOT excluded
by an active receiver filter — the guard `if (filter.receiver &&
transaction.receiver && ...)` skips the test when the receiver is
absent, so `filterTransactions` keeps the transaction. -/
theorem claim4_counterexample :
    txNoReceiver.receiver = none ∧
    receiverFilterX.receiver ≠ "" ∧
    filterTransactions receiverFilterX [txNoReceiver] = [txNoReceiver] := by
  refine ⟨rfl, by decide, ?_⟩
  decide

/-- C4, amended: for a transaction whose receiver is absent the
receiver check is skipped (fail-open), so its match outcome under any
filter equals the outcome with the receiver filter cleared; in
particular, with the other fields inactive, an active receiver filter
never removes it from `filterTransactions`. -/
theorem claim4_amended_fail_open (f : FilterState) (t : Transaction)
    (hr : t.receiver = none) :
    transactionMatches f t = transactionMatches { f with receiver := "" } t ∧
    ∀ l, t ∈ l → f.month = "" → f.date = "" → f.sender = "" →
      t ∈ filterTransactions f l := by
  constructor
  · simp only [transactionMatches, hr, receiverCheck_none, receiverCheck_empty]
  · intro l hl hm hd hs
    refine List.mem_filter.mpr ⟨hl, ?_⟩
    simp only [transactionMatches, hr, hm, hd, hs, monthCheck_empty, dateCheck_empty,
      senderCheck_empty, receiverCheck_none, Bool.and_self]

/-- Witness for the amended C4 at a concrete receiver-less transaction
under an active receiver filter. -/
theorem claim4_amended_fail_open_witness :
    txNoReceiver ∈ filterTransactions receiverFilterX [txNoReceiver] :=
  (claim4_amended_fail_open receiverFilterX txNoReceiver rfl).2
    [txNoReceiver] (by simp) rfl rfl rfl

/-- C5: a valid day-first date string — two-digit day, two-digit
month, four-digit year, optionally followed by an `HH:MM:SS` token —
parses back to exactly that day, month and year (and time), with the
first component read as the day and the second as the month. -/
theorem claim5_day_first_parse (y m d h mi s : Nat)
    (hy1 : 1000 ≤ y) (hy2 : y ≤ 9999) (hm1 : 1 ≤ m) (hm2 : m ≤ 12)
    (hd1 : 1 ≤ d) (hd2 : d ≤ daysInMonth (y : Int) m)
    (hh : h ≤ 23) (hmi : mi ≤ 59) (hs : s ≤ 59) :
    parseTransferDate (some (String.mk (renderDMY d m y))) =
      some { year := (y : Int), month := m, day := d, hour := 0, minute := 0, second := 0 } ∧
    parseTransferDate (some (String.mk (renderDMYHMS d m y h mi s))) =
      some { year := (y : Int), month := m, day := d, hour := h, minute := mi, second := s } := by
  constructor
  · show (if String.mk (renderDMY d m y) = "" then none
      else parseTransferDateBody (String.mk (renderDMY d m y))) = _
    rw [if_neg (stringMk_ne_empty renderDMY_ne_nil), parseTransferDateBody_renderDMY]
    have hv := @jsMakeDate_valid y m d 0 0 0
      hy1 hy2 hm1 hm2 hd1 hd2 (by omega) (by omega) (by omega)
    simpa using hv
  · show (if String.mk (renderDMYHMS d m y h mi s) = "" then none
      else parseTransferDateBody (String.mk (renderDMYHMS d m y h mi s))) = _
    rw [if_neg (stringMk_ne_empty (by
        unfold renderDMYHMS
        intro he
        rcases List.append_eq_nil.mp he with ⟨h1, _⟩
        exact renderDMY_ne_nil h1)),
      parseTransferDateBody_renderDMYHMS]
    exact jsMakeDate_valid hy1 hy2 hm1 hm2 hd1 hd2 hh hmi hs

/-- Witness for C5 at `"05/03/2024"` (with and without a time
token). -/
theorem claim5_day_first_parse_witness :
    parseTransferDate (some (String.mk (renderDMY 5 3 2024))) =
      some { year := ((2024 : Nat) : Int), month := 3, day := 5,
             hour := 0, minute := 0, second := 0 } ∧
    parseTransferDate (some (String.mk (renderDMYHMS 5 3 2024 10 30 0))) =
      some { year := ((2024 : Nat) : Int), month := 3, day := 5,
             hour := 10, minute := 30, second := 0 } :=
  claim5_day_first_parse 2024 3 5 10 30 0 (by norm_num) (by norm_num) (by norm_num)
    (by norm_num) (by norm_num) (by norm_num [daysInMonth]) (by norm_num) (by norm_num)
    (by norm_num)

/-- C6: the table's combined filter takes month and date from the
total card when non-empty, falling back to the average card; sender
comes only from the average card; receiver is always inactive. -/
theorem claim6_combined_filter :
    (∀ tf af : FilterState, tf.month ≠ "" → (combinedFilter tf af).month = tf.month) ∧
    (∀ tf af : FilterState, tf.month = "" → (combinedFilter tf af).month = af.month) ∧
    (∀ tf af : FilterState, tf.date ≠ "" → (combinedFilter tf af).date = tf.date) ∧
    (∀ tf af : FilterState, tf.date = "" → (combinedFilter tf af).date = af.date) ∧
    (∀ tf af : FilterState, (combinedFilter tf af).sender = af.sender) ∧
    (∀ tf af : FilterState, (combinedFilter tf af).receiver = "") := by
  refine ⟨?_, ?_, ?_, ?_, fun tf af => rfl, fun tf af => rfl⟩ <;>
    intro tf af h <;> simp [combinedFilter, jsOrStr, h]

/-- Witness for C6: the spec's two concrete month merges. -/
theorem claim6_combined_filter_witness :
    (combinedFilter { month := "2024-01", date := "", sender := "", receiver := "" }
      { month := "2024-03", date := "", sender := "s", receiver := "" }).month = "2024-01" ∧
    (combinedFilter { month := "", date := "", sender := "", receiver := "" }
      { month := "2024-03", date := "", sender := "s", receiver := "" }).month = "2024-03" :=
  ⟨claim6_combined_filter.1 _ _ (by decide), claim6_combined_filter.2.1 _ _ rfl⟩

/-- C7: the sum over an empty collection is 0, the average over an
empty collection is 0 (not `NaN`), and the average of amounts `"100"`
and `"50"` is exactly 75. -/
theorem claim7_aggregates :
    (∀ f : FilterState, totalAmountStats f [] = some 0) ∧
    (∀ f : FilterState, avgAmountStats f [] = some 0) ∧
    avgAmountStats emptyFilter [txAmount100, txAmount50] = some 75 := by
  refine ⟨fun _ => rfl, fun _ => rfl, ?_⟩
  simp only [avgAmountStats, filterTransactions_emptyFilter, sumAmounts_pair]
  rw [if_pos (by norm_num)]
  norm_num

/-- C8: `normalize` of `null` and of the empty string is the
Unparseable marker, and on every input the (total) parse yields either
a canonical date or the marker — never an exception. -/
theorem claim8_normalize_total :
    parseTransferDate none = none ∧
    parseTransferDate (some "") = none ∧
    ∀ s : String, (∃ dt, parseTransferDate (some s) = some dt) ∨
      parseTransferDate (some s) = none := by
  refine ⟨rfl, rfl, fun s => ?_⟩
  cases h : parseTransferDate (some s) with
  | none => exact Or.inr rfl
  | some dt => exact Or.inl ⟨dt, rfl⟩

/-- C9: filtering with the all-empty spec is the identity (same
elements, same order, same length), and any filtering returns an
order-preserving subsequence of the input. -/
theorem claim9_empty_filter_identity :
    (∀ l : List Transaction, filterTransactions emptyFilter l = l) ∧
    ∀ (f : FilterState) (l : List Transaction), List.Sublist (filterTransactions f l) l :=
  ⟨filterTransactions_emptyFilter, fun _ l => List.filter_sublist l⟩

/-- C10: activating one further filter field can only shrink the
result — if `f` and `g` agree except on one field, empty in `f` and
active in `g`, every transaction filtered in by `g` is filtered in by
`f` (the per-field tests combine by logical AND). -/
theorem claim10_filter_anti_monotone (l : List Transaction) (f g : FilterState)
    (t : Transaction)
    (hcase :
      (f.month = "" ∧ g.month ≠ "" ∧ f.date = g.date ∧ f.sender = g.sender ∧
        f.receiver = g.receiver) ∨
      (f.date = "" ∧ g.date ≠ "" ∧ f.month = g.month ∧ f.sender = g.sender ∧
        f.receiver = g.receiver) ∨
      (f.sender = "" ∧ g.sender ≠ "" ∧ f.month = g.month ∧ f.date = g.date ∧
        f.receiver = g.receiver) ∨
      (f.receiver = "" ∧ g.receiver ≠ "" ∧ f.month = g.month ∧ f.date = g.date ∧
        f.sender = g.sender))
    (ht : t ∈ filterTransactions g l) : t ∈ filterTransactions f l := by
  rcases List.mem_filter.mp ht with ⟨hmem, hmatch⟩
  refine List.mem_filter.mpr ⟨hmem, ?_⟩
  simp only [transactionMatches, Bool.and_eq_true] at hmatch ⊢
  obtain ⟨⟨⟨hmo, hda⟩, hse⟩, hre⟩ := hmatch
  rcases hcase with ⟨h1, _, h3, h4, h5⟩ | ⟨h1, _, h3, h4, h5⟩ | ⟨h1, _, h3, h4, h5⟩ |
    ⟨h1, _, h3, h4, h5⟩
  · exact ⟨⟨⟨by rw [h1, monthCheck_empty], by rw [h3]; exact hda⟩, by rw [h4]; exact hse⟩,
      by rw [h5]; exact hre⟩
  · exact ⟨⟨⟨by rw [h3]; exact hmo, by rw [h1, dateCheck_empty]⟩, by rw [h4]; exact hse⟩,
      by rw [h5]; exact hre⟩
  · exact ⟨⟨⟨by rw [h3]; exact hmo, by rw [h4]; exact hda⟩, by rw [h1, senderCheck_empty]⟩,
      by rw [h5]; exact hre⟩
  · exact ⟨⟨⟨by rw [h3]; exact hmo, by rw [h4]; exact hda⟩, by rw [h5]; exact hse⟩,
      by rw [h1, receiverCheck_empty]⟩

/-- Witness for C10: adding a sender filter to the empty spec keeps a
matching transaction in the result. -/
theorem claim10_filter_anti_monotone_witness :
    txAmount100 ∈ filterTransactions emptyFilter [txAmount100] :=
  claim10_filter_anti_monotone [txAmount100] emptyFilter senderFilterFred txAmount100
    (Or.inr (Or.inr (Or.inl ⟨rfl, by decide, rfl, rfl, rfl⟩))) (by decide)
